import Mathlib

/-!
Verification development for the MultiServerMCP server core
(src/server/mcp.ts, src/server/session-manager.ts, src/server/client-context.ts).

The TypeScript code is shallowly embedded: JavaScript `Map` objects become
association lists with JS `Map.set`/`get`/`delete` semantics (update in
place preserving insertion order, first-match lookup, single-entry delete),
plain JS objects used as string-keyed records get the same model, thrown
JS values become the error side of `Except`, and user callbacks are
explicit function values returning `Except` (error = the callback threw,
carrying the thrown error's message).  External collaborators (Zod, the
MCP SDK protocol runtime, WHATWG URL parsing, Express) are modelled only
at their boundary, as noted at each definition.
-/

namespace MultiServerMCP

/-! ### JavaScript collection primitives -/

/-- JS `Map.prototype.set`: if the key is present, update the value in place
(keeping insertion order); otherwise append a new entry. -/
def mapSet {β : Type} : List (String × β) → String → β → List (String × β)
  | [], k, v => [(k, v)]
  | (k₀, v₀) :: rest, k, v =>
    if k₀ = k then (k, v) :: rest else (k₀, v₀) :: mapSet rest k v

/-- JS `Map.prototype.get`: first entry with the key (keys are unique for
maps built with `mapSet`). -/
def mapGet {β : Type} : List (String × β) → String → Option β
  | [], _ => none
  | (k₀, v₀) :: rest, k => if k₀ = k then some v₀ else mapGet rest k

/-- JS `Map.prototype.delete`: remove the entry with the key, if present. -/
def mapDelete {β : Type} : List (String × β) → String → List (String × β)
  | [], _ => []
  | (k₀, v₀) :: rest, k => if k₀ = k then rest else (k₀, v₀) :: mapDelete rest k

/-- The keys of a map, in insertion order. -/
def keysOf {β : Type} (m : List (String × β)) : List String := m.map Prod.fst

/-! ### JS values, thrown values, protocol result shapes -/

/-- A JS value as far as the embedded code inspects one. -/
inductive JsVal where
  | str : String → JsVal
  | num : Int → JsVal
  | obj : List (String × JsVal) → JsVal

/-- Protocol error codes used by the handlers (`ErrorCode` from the MCP SDK). -/
inductive ErrorCode where
  | invalidParams
  | internalError
deriving DecidableEq

/-- A thrown JS value as the handlers produce them: an `McpError (code, message)`,
a generic `Error` identified by its message, or the `TypeError` raised by
reading a property of `null` (the named field is the one being read). -/
inductive Thrown where
  | mcpError : ErrorCode → String → Thrown
  | jsError : String → Thrown
  | nullDeref : String → Thrown
deriving DecidableEq

/-- A content item of a protocol result (only `text` items appear in the core). -/
inductive Content where
  | text : String → Content
deriving DecidableEq

/-- Result payload of a tool call (`CallToolResult`). -/
structure CallToolResult where
  content : List Content
  isError : Bool
deriving DecidableEq

/-- Result payload of a resource read (`ReadResourceResult`), kept opaque. -/
structure ReadResourceResult where
  contents : List Content
deriving DecidableEq

/-- Result payload of a prompt get (`GetPromptResult`), kept opaque. -/
structure GetPromptResult where
  messages : List Content
deriving DecidableEq

/-- Argument records handed to schemas and callbacks. -/
abbrev Args := List (String × JsVal)

/-- Boundary model of a Zod object schema: `safeParseAsync` either fails with
a message or succeeds with the parsed data. -/
abbrev Schema := Args → Except String Args

/-- A user tool callback; `Except.error msg` models the callback throwing a
value whose message text is `msg`. -/
abbrev ToolCb := Args → Except String CallToolResult

/-- A user prompt callback. -/
abbrev PromptCb := Args → Except String GetPromptResult

/-- A user read-resource callback for a concrete-uri resource. -/
abbrev ReadResourceCb := String → Except String ReadResourceResult

/-- A user read-resource callback for a template resource (uri, extracted variables). -/
abbrev ReadResourceTemplateCb := String → List (String × String) → Except String ReadResourceResult

/-! ### String helpers (client-context.ts, mcp.ts) -/

/-- JS `String.prototype.split("/")` on a character list: always returns at
least one (possibly empty) chunk. -/
def jsSplitSlash : List Char → List (List Char)
  | [] => [[]]
  | c :: cs =>
    if c = '/' then [] :: jsSplitSlash cs
    else
      match jsSplitSlash cs with
      | [] => [[c]]
      | p :: ps => (c :: p) :: ps

/-- String-level wrapper for `jsSplitSlash`. -/
def jsSplitSlashS (s : String) : List String :=
  (jsSplitSlash s.data).map (fun l => String.mk l)

/-- JS `name.replace("/", "_")` with a string pattern: replaces only the
FIRST occurrence of `/`. -/
def replaceFirstSlash : List Char → List Char
  | [] => []
  | c :: cs => if c = '/' then '_' :: cs else c :: replaceFirstSlash cs

/-- The key under which `tool`/`prompt` store a registration
(mcp.ts lines 381 and 510: `name = name.replace("/", "_")`). -/
def storedToolKey (s : String) : String := String.mk (replaceFirstSlash s.data)

/-! ### ClientContext and SessionManager -/

/-- Connection-scoped state (client-context.ts), minus the transport/req/res
handles which the embedded handlers never inspect. -/
structure ClientContext where
  sessionId : String
  uri : String
  urlGroups : List String
  reqQuery : Args

/-- The `ClientContext` constructor: permission groups are
`uri ? uri.split("/") : []` and `reqQuery` snapshots the opening request's
query parameters. -/
def mkClientContext (sessionId uri : String) (reqQuery : Args) : ClientContext :=
  { sessionId := sessionId
    uri := uri
    urlGroups := if uri = "" then [] else jsSplitSlashS uri
    reqQuery := reqQuery }

/-- The singleton `SessionManager`'s `_clientContexts` map; the singleton
state is passed explicitly. -/
abbrev SessionMap := List (String × ClientContext)

namespace SessionManager

/-- session-manager.ts `registerClientContext`. -/
def registerClientContext (sm : SessionMap) (ctx : ClientContext) : SessionMap :=
  mapSet sm ctx.sessionId ctx

/-- session-manager.ts `getClientContext`: absence is reported, never thrown. -/
def getClientContext (sm : SessionMap) (sessionId : String) : Option ClientContext :=
  mapGet sm sessionId

/-- session-manager.ts `getReqQuery`: `{}` when the session is absent. -/
def getReqQuery (sm : SessionMap) (sessionId : String) : Args :=
  match getClientContext sm sessionId with
  | none => []
  | some ctx => ctx.reqQuery

/-- session-manager.ts `removeSession`: `Map.delete`, silently a no-op for an
absent id. -/
def removeSession (sm : SessionMap) (sessionId : String) : SessionMap :=
  mapDelete sm sessionId

/-- session-manager.ts `getSessionCount`. -/
def getSessionCount (sm : SessionMap) : Nat := sm.length

/-- Exported convenience function `getSseReqQuery` (delegates to the
singleton's `getReqQuery`). -/
def getSseReqQuery (sm : SessionMap) (sessionId : String) : Args :=
  getReqQuery sm sessionId

end SessionManager

/-! ### Permission engine (mcp.ts `hasPermission`, `parseToolGroup`) -/

/-- The index-wise comparison loop of `hasPermission`
(`for i < keyGroups.length: if toolGroups[i] !== keyGroups[i] return false`).
An out-of-range read yields `undefined ≠ keyGroups[i]`, hence `false`. -/
def groupsMatch : List String → List String → Bool
  | _, [] => true
  | [], _ :: _ => false
  | t :: ts, k :: ks => if t ≠ k then false else groupsMatch ts ks

/-- mcp.ts `hasPermission(toolGroups, keyGroups?)`; `enableUrlGroups` is the
server's enforcement flag, `none` models an `undefined` `keyGroups` argument. -/
def hasPermission (enableUrlGroups : Bool) (toolGroups : List String)
    (keyGroups : Option (List String)) : Bool :=
  if !enableUrlGroups then true
  else
    match keyGroups with
    | none => true
    | some kg =>
      if kg.length = 0 then true
      else if toolGroups.length = 0 then true
      else if toolGroups.length < kg.length then false
      else groupsMatch toolGroups kg

/-- mcp.ts `parseToolGroup`: the `/`-separated segments of the name, minus
the last one; empty when URL groups are disabled, the name is empty, or the
name has no separator. -/
def parseToolGroup (enableUrlGroups : Bool) (name : String) : List String :=
  if !enableUrlGroups then []
  else if name = "" then []
  else
    let parts := jsSplitSlashS name
    if parts.length > 1 then parts.dropLast else []

/-! ### Resource template matching (mcp.ts `extractVariableNames`,
`extractVariablesFromUri`)

The source builds a regex from the template: every regex-significant
character is escaped to a literal, every maximal `{\w+}` substring becomes
a `([^/]+)` capture group, and the whole pattern is anchored (`^...$`).
The embedding parses the template into literal/placeholder tokens once
(the source scans twice, with the equivalent patterns `/{(\w+)}/g` and
`/\{\w+\}/g`) and implements the anchored greedy backtracking match of the
resulting pattern directly.  The recursions are driven by a fuel argument
for executability; the fuel supplied at the entry points strictly exceeds
the maximal recursion depth, so it never runs out. -/

/-- JS `\w`: ASCII letter, digit or underscore. -/
def isWordChar (c : Char) : Bool := c.isAlphanum || c = '_'

/-- One token of a parsed template: a literal character, or a `{name}`
placeholder (which the built regex turns into a `([^/]+)` capture). -/
inductive Tok where
  | lit : Char → Tok
  | grp : String → Tok
deriving DecidableEq

/-- Fuelled template scanner; each step consumes at least one character, so
fuel `length + 1` suffices. -/
def scanTemplateF : Nat → List Char → List Tok
  | 0, _ => []
  | _ + 1, [] => []
  | fuel + 1, c :: cs =>
    if c = '{' then
      let w := cs.takeWhile isWordChar
      match cs.dropWhile isWordChar with
      | '}' :: rest =>
        if w.isEmpty then Tok.lit c :: scanTemplateF fuel cs
        else Tok.grp (String.mk w) :: scanTemplateF fuel rest
      | _ => Tok.lit c :: scanTemplateF fuel cs
    else Tok.lit c :: scanTemplateF fuel cs

/-- Parse a template string into tokens. -/
def scanTemplate (template : String) : List Tok :=
  scanTemplateF (template.data.length + 1) template.data

/-- mcp.ts `extractVariableNames`: placeholder names, left to right. -/
def extractVariableNames (template : String) : List String :=
  (scanTemplate template).filterMap
    (fun t => match t with | Tok.grp n => some n | Tok.lit _ => none)

mutual

/-- Anchored match of a token sequence against the remaining characters,
returning the captured groups in order (`none` = no match). -/
def matchToksF : Nat → List Tok → List Char → Option (List (List Char))
  | 0, _, _ => none
  | _ + 1, [], xs => if xs.isEmpty then some [] else none
  | _ + 1, Tok.lit _ :: _, [] => none
  | fuel + 1, Tok.lit c :: ts, x :: xs =>
    if x = c then matchToksF fuel ts xs else none
  | fuel + 1, Tok.grp _ :: ts, xs =>
    tryGrpF fuel ts xs ((xs.takeWhile (fun c => c ≠ '/')).length)

/-- Greedy `([^/]+)` capture with backtracking: try the longest slash-free
nonempty prefix first, then shorter ones. -/
def tryGrpF : Nat → List Tok → List Char → Nat → Option (List (List Char))
  | 0, _, _, _ => none
  | _ + 1, _, _, 0 => none
  | fuel + 1, ts, xs, k + 1 =>
    match matchToksF fuel ts (xs.drop (k + 1)) with
    | some caps => some (xs.take (k + 1) :: caps)
    | none => tryGrpF fuel ts xs k

end

/-- The zip loop of `extractVariablesFromUri`
(`variables[variableNames[i]] = match[i + 1]`): JS object assignment in
left-to-right order, so a repeated name keeps its last captured value. -/
def zipToObj (names : List String) (caps : List String) : List (String × String) :=
  (names.zip caps).foldl (fun m p => mapSet m p.1 p.2) []

/-- mcp.ts `extractVariablesFromUri`: anchored match of the template's
pattern against the URI; `none` on non-match, otherwise the captured groups
zipped to the placeholder names. -/
def extractVariablesFromUri (template uri : String) : Option (List (String × String)) :=
  let toks := scanTemplate template
  let names := extractVariableNames template
  match matchToksF ((toks.length + 1) * (uri.data.length + 1) + toks.length + uri.data.length + 1)
      toks uri.data with
  | none => none
  | some caps => some (zipToObj names (caps.map (fun c => String.mk c)))

/-! ### Capability registrations and the server state -/

/-- A registered tool (mcp.ts `ToolRegistration`). -/
structure ToolRegistration where
  name : String
  group : List String
  description : Option String
  inputSchema : Option Schema
  callback : ToolCb

/-- The kind-and-callback of a registered resource.  The source stores a
`type` flag, optional `uri`/`template` fields and a union-typed callback,
aligned by construction at registration time (malformed registrations are
dropped); the embedding collapses the reachable combinations into a sum.
A template is represented by its `uriTemplate.toString()` string. -/
inductive ResourceKind where
  | uriRes : String → ReadResourceCb → ResourceKind
  | templateRes : String → ReadResourceTemplateCb → ResourceKind

/-- A registered resource (mcp.ts `ResourceRegistration`, minus the opaque
metadata spread into listings). -/
structure ResourceRegistration where
  name : String
  group : List String
  kind : ResourceKind

/-- Boundary model of a Zod prompt argument schema: the field names with
their optionality (from `schema.shape`), plus the `safeParseAsync` validator. -/
structure PromptSchema where
  shape : List (String × Bool)
  validate : Schema

/-- A registered prompt (mcp.ts `PromptRegistration`). -/
structure PromptRegistration where
  name : String
  group : List String
  description : Option String
  argsSchema : Option PromptSchema
  callback : PromptCb

/-- The `MultiServerMCP` server's registration state. -/
structure MCPState where
  enableUrlGroups : Bool
  registeredTools : List (String × ToolRegistration)
  registeredResources : List (String × ResourceRegistration)
  registeredPrompts : List (String × PromptRegistration)

/-- A fresh server (constructor with the `enableUrlGroups` option). -/
def mkState (enableUrlGroups : Bool) : MCPState :=
  { enableUrlGroups := enableUrlGroups
    registeredTools := []
    registeredResources := []
    registeredPrompts := [] }

/-- mcp.ts `tool(name, ...)`: the group is parsed from the original name,
then the FIRST `/` of the name is replaced by `_` and the record is stored
under the rewritten key (overwriting any prior entry).  The overload
resolution of the optional description/schema arguments is modelled by the
two `Option` parameters. -/
def MCPState.tool (st : MCPState) (name : String) (description : Option String)
    (paramsSchema : Option Schema) (cb : ToolCb) : MCPState :=
  let group := parseToolGroup st.enableUrlGroups name
  let key := storedToolKey name
  { st with
    registeredTools := mapSet st.registeredTools key
      { name := key, group := group, description := description
        inputSchema := paramsSchema, callback := cb } }

/-- mcp.ts `resource(name, ...)`: stored under the ORIGINAL name (no
separator rewriting), group parsed from the name.  Registrations whose
callback/type cannot be determined are dropped by the source before the
store; only well-formed ones are representable here. -/
def MCPState.resource (st : MCPState) (name : String) (kind : ResourceKind) : MCPState :=
  let group := parseToolGroup st.enableUrlGroups name
  { st with
    registeredResources := mapSet st.registeredResources name
      { name := name, group := group, kind := kind } }

/-- mcp.ts `prompt(name, ...)`: same key rewriting as `tool`. -/
def MCPState.prompt (st : MCPState) (name : String) (description : Option String)
    (argsSchema : Option PromptSchema) (cb : PromptCb) : MCPState :=
  let group := parseToolGroup st.enableUrlGroups name
  let key := storedToolKey name
  { st with
    registeredPrompts := mapSet st.registeredPrompts key
      { name := key, group := group, description := description
        argsSchema := argsSchema, callback := cb } }

/-! ### Request handlers (mcp.ts `setCustom*RequestHandlers`)

Each handler is a function from the server state, the session map and the
request data to `Except Thrown result`.  The listing handlers look the
session up and cast away `null` (`as ClientContext`); the JS `.filter`
callback then reads `.urlGroups` once per registry entry, so with an
absent session the first entry raises a `TypeError` — modelled by
`filterByPermission` threading `Except` through the traversal. -/

/-- The permission filter of the three listing handlers: JS
`Array.prototype.filter` whose callback dereferences the (possibly null)
client context. -/
def filterByPermission {α : Type} (enableUrlGroups : Bool) (ctx : Option ClientContext)
    (groupOf : α → List String) : List (String × α) → Except Thrown (List (String × α))
  | [] => Except.ok []
  | (n, a) :: rest =>
    match ctx with
    | none => Except.error (Thrown.nullDeref "urlGroups")
    | some c =>
      match filterByPermission enableUrlGroups ctx groupOf rest with
      | Except.error e => Except.error e
      | Except.ok tail =>
        Except.ok (if hasPermission enableUrlGroups (groupOf a) (some c.urlGroups)
          then (n, a) :: tail else tail)

/-- The protocol-facing projection of a listed tool.  The input-schema JSON
produced by the external `zodToJsonSchema` (or the `{type: "object"}`
default for a schema-less tool) is projected to its presence. -/
structure ToolView where
  name : String
  description : Option String
  hasInputSchema : Bool
deriving DecidableEq

/-- ListTools handler. -/
def listToolsHandler (st : MCPState) (sm : SessionMap) (sessionId : String) :
    Except Thrown (List ToolView) :=
  let ctx := SessionManager.getClientContext sm sessionId
  match filterByPermission st.enableUrlGroups ctx (fun t => t.group) st.registeredTools with
  | Except.error e => Except.error e
  | Except.ok l =>
    Except.ok (l.map (fun nt =>
      { name := nt.1, description := nt.2.description
        hasInputSchema := nt.2.inputSchema.isSome }))

/-- The protocol-facing projection of a listed resource (metadata spread
omitted): concrete-uri records expose their uri, template records expose
the template string and its placeholder names. -/
structure ResourceView where
  name : String
  uri : String
  varNames : Option (List String)
deriving DecidableEq

/-- ListResources handler. -/
def listResourcesHandler (st : MCPState) (sm : SessionMap) (sessionId : String) :
    Except Thrown (List ResourceView) :=
  let ctx := SessionManager.getClientContext sm sessionId
  match filterByPermission st.enableUrlGroups ctx (fun r => r.group) st.registeredResources with
  | Except.error e => Except.error e
  | Except.ok l =>
    Except.ok (l.map (fun nr =>
      match nr.2.kind with
      | ResourceKind.uriRes u _ => { name := nr.1, uri := u, varNames := none }
      | ResourceKind.templateRes tmpl _ =>
        { name := nr.1, uri := tmpl, varNames := some (extractVariableNames tmpl) }))

/-- A prompt argument as listed (`promptArgumentsFromSchema`). -/
structure PromptArgument where
  name : String
  required : Bool
deriving DecidableEq

/-- mcp.ts `promptArgumentsFromSchema`: one argument per schema field,
required unless the Zod field is `ZodOptional`. -/
def promptArgumentsFromSchema (schema : PromptSchema) : List PromptArgument :=
  schema.shape.map (fun nf => { name := nf.1, required := !nf.2 })

/-- The protocol-facing projection of a listed prompt. -/
structure PromptView where
  name : String
  description : Option String
  arguments : List PromptArgument
deriving DecidableEq

/-- ListPrompts handler. -/
def listPromptsHandler (st : MCPState) (sm : SessionMap) (sessionId : String) :
    Except Thrown (List PromptView) :=
  let ctx := SessionManager.getClientContext sm sessionId
  match filterByPermission st.enableUrlGroups ctx (fun p => p.group) st.registeredPrompts with
  | Except.error e => Except.error e
  | Except.ok l =>
    Except.ok (l.map (fun np =>
      { name := np.1, description := np.2.description
        arguments := match np.2.argsSchema with
          | some schema => promptArgumentsFromSchema schema
          | none => [] }))

/-- CallTool handler (mcp.ts lines 617–678).  Look the tool up (unknown →
`InvalidParams`); with a schema, validate (failure → `InvalidParams`),
fetch the client context (null → `TypeError` on `.reqQuery`), augment the
parsed arguments with the session's request-query snapshot, and invoke the
callback, converting a thrown callback error into an `isError: true`
result; without a schema, invoke the callback directly with the same
conversion.  The handler performs NO permission check. -/
def callToolHandler (st : MCPState) (sm : SessionMap) (sessionId : String)
    (name : String) (args : Args) : Except Thrown CallToolResult :=
  match mapGet st.registeredTools name with
  | none => Except.error (Thrown.mcpError ErrorCode.invalidParams ("Tool " ++ name ++ " not found"))
  | some tool =>
    match tool.inputSchema with
    | some schema =>
      match schema args with
      | Except.error msg =>
        Except.error (Thrown.mcpError ErrorCode.invalidParams
          ("Invalid arguments for tool " ++ name ++ ": " ++ msg))
      | Except.ok parsed =>
        match SessionManager.getClientContext sm sessionId with
        | none => Except.error (Thrown.nullDeref "reqQuery")
        | some ctx =>
          match tool.callback (mapSet parsed "reqQuery" (JsVal.obj ctx.reqQuery)) with
          | Except.ok r => Except.ok r
          | Except.error msg => Except.ok { content := [Content.text msg], isError := true }
    | none =>
      match tool.callback [] with
      | Except.ok r => Except.ok r
      | Except.error msg => Except.ok { content := [Content.text msg], isError := true }

/-- ReadResource handler (mcp.ts lines 746–806).  Look the resource up
(unknown → `InvalidParams`), fetch the client context (null → `TypeError`
on `.urlGroups`), re-check permission (denial → `InvalidParams` access
denied), then dispatch on the record's kind; the `try`/`catch` logs and
re-throws, so callback errors and template mismatches propagate.  WHATWG
URL re-parsing of the request uri is an external boundary and is modelled
as the identity. -/
def readResourceHandler (st : MCPState) (sm : SessionMap) (sessionId : String)
    (name : String) (uri : String) : Except Thrown ReadResourceResult :=
  match mapGet st.registeredResources name with
  | none =>
    Except.error (Thrown.mcpError ErrorCode.invalidParams ("Resource " ++ name ++ " not found"))
  | some r =>
    match SessionManager.getClientContext sm sessionId with
    | none => Except.error (Thrown.nullDeref "urlGroups")
    | some ctx =>
      if hasPermission st.enableUrlGroups r.group (some ctx.urlGroups) then
        match r.kind with
        | ResourceKind.uriRes _ cb =>
          match cb uri with
          | Except.ok res => Except.ok res
          | Except.error msg => Except.error (Thrown.jsError msg)
        | ResourceKind.templateRes tmpl cb =>
          match extractVariablesFromUri tmpl uri with
          | none =>
            Except.error (Thrown.mcpError ErrorCode.invalidParams
              ("URI " ++ uri ++ " does not match template for resource " ++ name))
          | some vars =>
            match cb uri vars with
            | Except.ok res => Except.ok res
            | Except.error msg => Except.error (Thrown.jsError msg)
      else
        Except.error (Thrown.mcpError ErrorCode.invalidParams
          ("Access denied to resource " ++ name))

/-- GetPrompt handler (mcp.ts lines 862–914).  Look the prompt up (unknown
→ `InvalidParams`), fetch the client context (null → `TypeError` on
`.urlGroups`), re-check permission (denial → `InvalidParams` access
denied), validate arguments when a schema is declared, and invoke the
callback; the `try`/`catch` logs and re-throws, so errors propagate. -/
def getPromptHandler (st : MCPState) (sm : SessionMap) (sessionId : String)
    (name : String) (args : Args) : Except Thrown GetPromptResult :=
  match mapGet st.registeredPrompts name with
  | none =>
    Except.error (Thrown.mcpError ErrorCode.invalidParams ("Prompt " ++ name ++ " not found"))
  | some p =>
    match SessionManager.getClientContext sm sessionId with
    | none => Except.error (Thrown.nullDeref "urlGroups")
    | some ctx =>
      if hasPermission st.enableUrlGroups p.group (some ctx.urlGroups) then
        match p.argsSchema with
        | some schema =>
          match schema.validate args with
          | Except.error msg =>
            Except.error (Thrown.mcpError ErrorCode.invalidParams
              ("Invalid arguments for prompt " ++ name ++ ": " ++ msg))
          | Except.ok parsed =>
            match p.callback parsed with
            | Except.ok r => Except.ok r
            | Except.error msg => Except.error (Thrown.jsError msg)
        | none =>
          match p.callback [] with
          | Except.ok r => Except.ok r
          | Except.error msg => Except.error (Thrown.jsError msg)
      else
        Except.error (Thrown.mcpError ErrorCode.invalidParams
          ("Access denied to prompt " ++ name))

/-! ### Helper definitions used by the theorems -/

/-- The registration-call arguments of one `tool(...)` invocation. -/
structure ToolRegArgs where
  name : String
  description : Option String
  paramsSchema : Option Schema
  cb : ToolCb

/-- Apply a sequence of `tool(...)` registrations in order. -/
def registerAll (st : MCPState) (regs : List ToolRegArgs) : MCPState :=
  regs.foldl (fun s r => s.tool r.name r.description r.paramsSchema r.cb) st

/-- The record that one `tool(...)` call stores. -/
def toolRecordOf (enableUrlGroups : Bool) (r : ToolRegArgs) : ToolRegistration :=
  { name := storedToolKey r.name
    group := parseToolGroup enableUrlGroups r.name
    description := r.description
    inputSchema := r.paramsSchema
    callback := r.cb }

/-- The most recent registration in the sequence whose stored key is `k`. -/
def lastRegFor (k : String) : List ToolRegArgs → Option ToolRegArgs
  | [] => none
  | r :: rs =>
    match lastRegFor k rs with
    | some x => some x
    | none => if storedToolKey r.name = k then some r else none

/-- The last value assigned to key `n` by the pairs, in left-to-right order. -/
def lastValueFor (n : String) : List (String × String) → Option String
  | [] => none
  | p :: ps =>
    match lastValueFor n ps with
    | some v => some v
    | none => if p.1 = n then some p.2 else none

/-! ### Generic lemmas about the JS collection model -/

theorem mapGet_mapSet {β : Type} (m : List (String × β)) (k q : String) (v : β) :
    mapGet (mapSet m k v) q = if k = q then some v else mapGet m q := by
  induction m with
  | nil => simp [mapSet, mapGet]
  | cons hd tl ih =>
    obtain ⟨a, b⟩ := hd
    by_cases h : a = k
    · subst h
      by_cases h2 : a = q <;> simp [mapSet, mapGet, h2]
    · by_cases h2 : a = q
      · subst h2
        have hk : ¬ k = a := fun hh => h hh.symm
        simp [mapSet, mapGet, h, hk]
      · simp [mapSet, mapGet, h, h2, ih]

theorem mapGet_none_mapDelete {β : Type} (m : List (String × β)) (k : String)
    (h : mapGet m k = none) : mapDelete m k = m := by
  induction m with
  | nil => rfl
  | cons hd tl ih =>
    obtain ⟨a, b⟩ := hd
    simp only [mapGet] at h
    by_cases h2 : a = k
    · simp [h2] at h
    · simp only [h2, if_false] at h
      simp [mapDelete, h2, ih h]

theorem mapGet_not_mem_keys {β : Type} (m : List (String × β)) (k : String)
    (h : k ∉ keysOf m) : mapGet m k = none := by
  induction m with
  | nil => rfl
  | cons hd tl ih =>
    obtain ⟨a, b⟩ := hd
    simp only [keysOf, List.map_cons, List.mem_cons, not_or] at h
    have ha : ¬ a = k := fun hh => h.1 hh.symm
    simp only [mapGet, if_neg ha]
    exact ih h.2

theorem mapGet_mapDelete_nodup {β : Type} (m : List (String × β)) (k : String)
    (h : (keysOf m).Nodup) : mapGet (mapDelete m k) k = none := by
  induction m with
  | nil => rfl
  | cons hd tl ih =>
    obtain ⟨a, b⟩ := hd
    simp only [keysOf, List.map_cons, List.nodup_cons] at h
    by_cases h2 : a = k
    · subst h2
      simp only [mapDelete, if_pos rfl]
      exact mapGet_not_mem_keys tl a h.1
    · simp only [mapDelete, if_neg h2, mapGet, if_neg h2]
      exact ih h.2

/-! ### The permission loop computes the prefix relation -/

theorem groupsMatch_iff_take (tg kg : List String) :
    groupsMatch tg kg = true ↔ tg.take kg.length = kg := by
  induction kg generalizing tg with
  | nil => simp [groupsMatch]
  | cons k ks ih =>
    cases tg with
    | nil => simp [groupsMatch]
    | cons t ts =>
      simp only [groupsMatch, List.length_cons, List.take_succ_cons, List.cons.injEq]
      by_cases h : t = k
      · subst h
        simp [ih]
      · simp [h]

/-! ### Splitting and first-slash replacement on character lists -/

theorem jsSplitSlash_no_slash (a : List Char) (ha : '/' ∉ a) :
    jsSplitSlash a = [a] := by
  induction a with
  | nil => rfl
  | cons c cs ih =>
    simp only [List.mem_cons, not_or] at ha
    have hc : ¬ c = '/' := fun hh => ha.1 hh.symm
    simp [jsSplitSlash, hc, ih ha.2]

theorem jsSplitSlash_append (a r : List Char) (ha : '/' ∉ a) :
    jsSplitSlash (a ++ '/' :: r) = a :: jsSplitSlash r := by
  induction a with
  | nil => simp [jsSplitSlash]
  | cons c cs ih =>
    simp only [List.mem_cons, not_or] at ha
    have hc : ¬ c = '/' := fun hh => ha.1 hh.symm
    have ih2 := ih ha.2
    simp only [List.cons_append, jsSplitSlash, if_neg hc, List.append_eq, ih2]

theorem replaceFirstSlash_no_slash (a : List Char) (ha : '/' ∉ a) :
    replaceFirstSlash a = a := by
  induction a with
  | nil => rfl
  | cons c cs ih =>
    simp only [List.mem_cons, not_or] at ha
    have hc : ¬ c = '/' := fun hh => ha.1 hh.symm
    simp [replaceFirstSlash, hc, ih ha.2]

theorem replaceFirstSlash_append (a r : List Char) (ha : '/' ∉ a) :
    replaceFirstSlash (a ++ '/' :: r) = a ++ '_' :: r := by
  induction a with
  | nil => simp [replaceFirstSlash]
  | cons c cs ih =>
    simp only [List.mem_cons, not_or] at ha
    have hc : ¬ c = '/' := fun hh => ha.1 hh.symm
    have ih2 := ih ha.2
    simp only [List.cons_append, replaceFirstSlash, if_neg hc, List.append_eq, ih2]

/-! ### Claim C2: the permission check -/

/-- Claim C2: with enforcement disabled `hasPermission` returns `true` for
all inputs; with enforcement enabled it returns `true` iff the session
group is absent or empty, or the capability group is empty, or the
capability group is at least as long as the session group and agrees with
it index-wise (the session group is a literal prefix); `false` in all
other cases.  Totality, determinism and freedom from side effects are
inherent in the function being a Lean definition. -/
theorem hasPermission_characterization (e : Bool) (tg kg : List String) :
    hasPermission false tg (some kg) = true ∧
    hasPermission e tg none = true ∧
    (hasPermission true tg (some kg) = true ↔
      kg = [] ∨ tg = [] ∨ (kg.length ≤ tg.length ∧ tg.take kg.length = kg)) := by
  refine ⟨rfl, by cases e <;> rfl, ?_⟩
  have hunfold : hasPermission true tg (some kg) =
      (if kg.length = 0 then true
       else if tg.length = 0 then true
       else if tg.length < kg.length then false
       else groupsMatch tg kg) := rfl
  rw [hunfold]
  split_ifs with h1 h2 h3
  · simp [List.length_eq_zero.mp h1]
  · simp [List.length_eq_zero.mp h2]
  · constructor
    · intro hh
      simp at hh
    · intro hh
      rcases hh with h | h | h
      · subst h
        simp at h1
      · subst h
        simp at h2
      · obtain ⟨hle, _⟩ := h
        omega
  · rw [groupsMatch_iff_take]
    constructor
    · intro hh
      exact Or.inr (Or.inr ⟨by omega, hh⟩)
    · intro hh
      rcases hh with h | h | h
      · subst h
        simp at h1
      · subst h
        simp at h2
      · exact h.2

/-! ### Claim C7: last write wins in the tool registry -/

/-- Claim C7: after any sequence of `tool(...)` registrations, `get(name)`
on the registry returns the record of the most recent registration stored
under that key; a re-registration under an occupied key raises no error
(registration is total) and silently replaces the prior entry. -/
theorem registry_last_write_wins (st : MCPState) (regs : List ToolRegArgs) (k : String) :
    mapGet (registerAll st regs).registeredTools k =
      (match lastRegFor k regs with
       | some r => some (toolRecordOf st.enableUrlGroups r)
       | none => mapGet st.registeredTools k) := by
  induction regs generalizing st with
  | nil => rfl
  | cons r rs ih =>
    show mapGet (registerAll (st.tool r.name r.description r.paramsSchema r.cb) rs).registeredTools k = _
    rw [ih]
    cases hl : lastRegFor k rs with
    | some x =>
      simp only [lastRegFor, hl]
      rfl
    | none =>
      simp only [lastRegFor, hl]
      show mapGet (mapSet st.registeredTools (storedToolKey r.name) _) k = _
      rw [mapGet_mapSet]
      by_cases hk : storedToolKey r.name = k
      · subst hk
        simp [toolRecordOf]
      · simp [hk]

/-! ### Claim C8: session removal is idempotent -/

/-- Claim C8: removing a session twice equals removing it once (so the
second call leaves the session count unchanged), and removing a
never-registered id is a silent no-op; `removeSession` is total, so no
call raises.  The JS `Map` invariant of unique keys is the `Nodup`
hypothesis. -/
theorem removeSession_idempotent (sm : SessionMap) (sid : String)
    (h : (keysOf sm).Nodup) :
    SessionManager.removeSession (SessionManager.removeSession sm sid) sid =
      SessionManager.removeSession sm sid ∧
    SessionManager.getSessionCount
        (SessionManager.removeSession (SessionManager.removeSession sm sid) sid) =
      SessionManager.getSessionCount (SessionManager.removeSession sm sid) ∧
    (SessionManager.getClientContext sm sid = none →
      SessionManager.removeSession sm sid = sm) := by
  have habs : ∀ (m : SessionMap), SessionManager.getClientContext m sid = none →
      SessionManager.removeSession m sid = m :=
    fun m hm => mapGet_none_mapDelete m sid hm
  have h1 : SessionManager.removeSession (SessionManager.removeSession sm sid) sid =
      SessionManager.removeSession sm sid :=
    habs _ (mapGet_mapDelete_nodup sm sid h)
  exact ⟨h1, by rw [h1], habs sm⟩

/-- A concrete session bound to connection path `other`. -/
def ctxOther : ClientContext := mkClientContext "s1" "other" []

/-- Witness for `removeSession_idempotent` at a concrete one-session registry. -/
theorem removeSession_idempotent_witness :
    SessionManager.removeSession (SessionManager.removeSession [("s1", ctxOther)] "s1") "s1" =
      SessionManager.removeSession [("s1", ctxOther)] "s1" ∧
    SessionManager.getSessionCount
        (SessionManager.removeSession
          (SessionManager.removeSession [("s1", ctxOther)] "s1") "s1") =
      SessionManager.getSessionCount (SessionManager.removeSession [("s1", ctxOther)] "s1") ∧
    (SessionManager.getClientContext [("s1", ctxOther)] "s1" = none →
      SessionManager.removeSession [("s1", ctxOther)] "s1" = [("s1", ctxOther)]) :=
  removeSession_idempotent [("s1", ctxOther)] "s1" (by simp [keysOf])

/-! ### Claim C10: `getReqQuery` never throws -/

/-- Claim C10: `getReqQuery` (and the exported `getSseReqQuery`, which
delegates to it) is total: it returns the empty record when no session is
registered under the identifier and the session's stored request-query
snapshot otherwise; in particular, querying right after registering a
context returns that context's snapshot. -/
theorem getReqQuery_total_spec (sm : SessionMap) (sid : String) :
    SessionManager.getSseReqQuery sm sid = SessionManager.getReqQuery sm sid ∧
    (SessionManager.getReqQuery sm sid =
      match SessionManager.getClientContext sm sid with
      | none => []
      | some ctx => ctx.reqQuery) ∧
    (∀ ctx : ClientContext,
      SessionManager.getReqQuery (SessionManager.registerClientContext sm ctx) ctx.sessionId =
        ctx.reqQuery) := by
  refine ⟨rfl, rfl, ?_⟩
  intro ctx
  simp [SessionManager.getReqQuery, SessionManager.getClientContext,
    SessionManager.registerClientContext, mapGet_mapSet]

/-! ### Concrete states used in the scenario theorems -/

/-- A trivial tool callback for registration scenarios. -/
def cbEmpty : ToolCb := fun _ => Except.ok { content := [], isError := false }

/-- A server (URL groups off) with one registered tool. -/
def stOneTool : MCPState := (mkState false).tool "t" none none cbEmpty

/-! ### Claim C4: stored keys only replace the FIRST separator -/

/-- Claim C4 counterexample: registering a tool named `a/b/c` stores it
under the key `a_b/c` — JS `replace` with a string pattern rewrites only
the first `/`, so the stored key still contains a separator and is not a
single flattened identifier. -/
theorem toolKey_retains_separator :
    storedToolKey "a/b/c" = "a_b/c" ∧
    ('/' ∈ "a_b/c".data) ∧
    (mapGet ((mkState true).tool "a/b/c" none none cbEmpty).registeredTools "a_b/c").isSome
      = true ∧
    parseToolGroup true "a/b/c" = ["a", "b"] := by
  exact ⟨by decide, by decide, by decide, by decide⟩

/-- Claim C4 amended: the stored key of a tool/prompt registration replaces
only the FIRST hierarchical separator with `_` — a name with a single
separator (`a/b`) flattens to a key with no separator, but a deeper name
(`a/b/c`) keeps every later separator — while the group metadata retains
all but the last segment of the original name (URL groups enabled). -/
theorem tool_name_flattening (a b c : List Char)
    (ha : '/' ∉ a) (hb : '/' ∉ b) (hc : '/' ∉ c) :
    storedToolKey (String.mk (a ++ '/' :: b)) = String.mk (a ++ '_' :: b) ∧
    ('/' ∉ a ++ '_' :: b) ∧
    storedToolKey (String.mk (a ++ '/' :: (b ++ '/' :: c))) =
      String.mk (a ++ '_' :: (b ++ '/' :: c)) ∧
    ('/' ∈ a ++ '_' :: (b ++ '/' :: c)) ∧
    parseToolGroup true (String.mk (a ++ '/' :: b)) = [String.mk a] ∧
    parseToolGroup true (String.mk (a ++ '/' :: (b ++ '/' :: c))) =
      [String.mk a, String.mk b] := by
  have h3 : jsSplitSlash (a ++ '/' :: b) = [a, b] := by
    rw [jsSplitSlash_append a b ha, jsSplitSlash_no_slash b hb]
  have h4 : jsSplitSlash (a ++ '/' :: (b ++ '/' :: c)) = [a, b, c] := by
    rw [jsSplitSlash_append a (b ++ '/' :: c) ha, jsSplitSlash_append b c hb,
      jsSplitSlash_no_slash c hc]
  have hne1 : ¬ (String.mk (a ++ '/' :: b) = "") := by
    intro hh
    have hd := congrArg String.data hh
    simp at hd
  have hne2 : ¬ (String.mk (a ++ '/' :: (b ++ '/' :: c)) = "") := by
    intro hh
    have hd := congrArg String.data hh
    simp at hd
  refine ⟨?_, ?_, ?_, ?_, ?_, ?_⟩
  · show String.mk (replaceFirstSlash (a ++ '/' :: b)) = _
    rw [replaceFirstSlash_append a b ha]
  · simp only [List.mem_append, List.mem_cons, not_or]
    exact ⟨ha, by decide, hb⟩
  · show String.mk (replaceFirstSlash (a ++ '/' :: (b ++ '/' :: c))) = _
    rw [replaceFirstSlash_append a (b ++ '/' :: c) ha]
  · simp
  · simp [parseToolGroup, hne1, jsSplitSlashS, h3]
  · simp [parseToolGroup, hne2, jsSplitSlashS, h4]

/-- Witness for `tool_name_flattening` at the concrete name segments
`a`, `b`, `c`. -/
theorem tool_name_flattening_witness :
    storedToolKey (String.mk (['a'] ++ '/' :: ['b'])) = String.mk (['a'] ++ '_' :: ['b']) ∧
    ('/' ∉ ['a'] ++ '_' :: ['b']) ∧
    storedToolKey (String.mk (['a'] ++ '/' :: (['b'] ++ '/' :: ['c']))) =
      String.mk (['a'] ++ '_' :: (['b'] ++ '/' :: ['c'])) ∧
    ('/' ∈ ['a'] ++ '_' :: (['b'] ++ '/' :: ['c'])) ∧
    parseToolGroup true (String.mk (['a'] ++ '/' :: ['b'])) = [String.mk ['a']] ∧
    parseToolGroup true (String.mk (['a'] ++ '/' :: (['b'] ++ '/' :: ['c']))) =
      [String.mk ['a'], String.mk ['b']] :=
  tool_name_flattening ['a'] ['b'] ['c'] (by decide) (by decide) (by decide)

/-! ### Claim C3: listing with an unresolved session -/

/-- Claim C3 counterexample: with one registered tool and a session
identifier that resolves to no session, the ListTools handler does not
respond with an empty list — the permission filter dereferences the
absent (null) client context and the request fails. -/
theorem listTools_absent_session_throws :
    listToolsHandler stOneTool [] "s" = Except.error (Thrown.nullDeref "urlGroups") ∧
    listToolsHandler stOneTool [] "s" ≠ Except.ok [] := by
  have h : listToolsHandler stOneTool [] "s" = Except.error (Thrown.nullDeref "urlGroups") := rfl
  refine ⟨h, ?_⟩
  rw [h]
  intro hh
  exact Except.noConfusion hh

/-- Claim C3 amended: when the session identifier resolves to no registered
session, each listing handler returns the empty list only when its
registry is empty (the filter callback never runs); as soon as at least
one capability is registered, the filter reads `urlGroups` off the absent
(null) context and the request fails with that `TypeError`. -/
theorem listHandlers_absent_session (st : MCPState) (sm : SessionMap) (sid : String)
    (h : SessionManager.getClientContext sm sid = none) :
    listToolsHandler st sm sid =
      (if st.registeredTools.isEmpty then Except.ok []
       else Except.error (Thrown.nullDeref "urlGroups")) ∧
    listResourcesHandler st sm sid =
      (if st.registeredResources.isEmpty then Except.ok []
       else Except.error (Thrown.nullDeref "urlGroups")) ∧
    listPromptsHandler st sm sid =
      (if st.registeredPrompts.isEmpty then Except.ok []
       else Except.error (Thrown.nullDeref "urlGroups")) := by
  refine ⟨?_, ?_, ?_⟩
  · simp only [listToolsHandler, h]
    cases st.registeredTools with
    | nil => rfl
    | cons hd tl =>
      cases hd
      rfl
  · simp only [listResourcesHandler, h]
    cases st.registeredResources with
    | nil => rfl
    | cons hd tl =>
      cases hd
      rfl
  · simp only [listPromptsHandler, h]
    cases st.registeredPrompts with
    | nil => rfl
    | cons hd tl =>
      cases hd
      rfl

/-- Witness for `listHandlers_absent_session` at a concrete server with
one tool and an empty session registry. -/
theorem listHandlers_absent_session_witness :
    listToolsHandler stOneTool [] "s2" =
      (if stOneTool.registeredTools.isEmpty then Except.ok []
       else Except.error (Thrown.nullDeref "urlGroups")) ∧
    listResourcesHandler stOneTool [] "s2" =
      (if stOneTool.registeredResources.isEmpty then Except.ok []
       else Except.error (Thrown.nullDeref "urlGroups")) ∧
    listPromptsHandler stOneTool [] "s2" =
      (if stOneTool.registeredPrompts.isEmpty then Except.ok []
       else Except.error (Thrown.nullDeref "urlGroups")) :=
  listHandlers_absent_session stOneTool [] "s2" rfl

/-! ### Claim C1: permission re-check on invocation -/

/-- A Zod schema that accepts the arguments unchanged. -/
def schemaOk : Schema := fun a => Except.ok a

/-- A callback returning the text result `5`. -/
def cbFive : ToolCb := fun _ => Except.ok { content := [Content.text "5"], isError := false }

/-- A resource read callback (unreachable in the denial scenario). -/
def rcbHello : ReadResourceCb := fun _ => Except.ok { contents := [Content.text "hello"] }

/-- A prompt callback (unreachable in the denial scenario). -/
def pcbHello : PromptCb := fun _ => Except.ok { messages := [Content.text "hello"] }

/-- A server with URL-group enforcement on and one tool, one resource and
one prompt, all in group `calc`. -/
def stCalc : MCPState :=
  (((mkState true).tool "calc/add" none (some schemaOk) cbFive).resource "calc/res"
      (ResourceKind.uriRes "res://x" rcbHello)).prompt "calc/hello" none none pcbHello

/-- A session map holding one session scoped to the path `other`. -/
def smOther : SessionMap := [("s1", ctxOther)]

/-- Claim C1, evaluated at the failing input: the permission check denies
the pairing of group `calc` with session path `other`, and ReadResource
and GetPrompt accordingly fail with the access-denied `InvalidParams`
error without reaching the callback — but the CallTool handler contains
no permission re-check at all: the same denied session invokes the tool
callback and receives its result. -/
theorem calltool_skips_permission_check :
    hasPermission true ["calc"] (some ["other"]) = false ∧
    callToolHandler stCalc smOther "s1" "calc_add" [] =
      Except.ok { content := [Content.text "5"], isError := false } ∧
    readResourceHandler stCalc smOther "s1" "calc/res" "res://x" =
      Except.error (Thrown.mcpError ErrorCode.invalidParams
        "Access denied to resource calc/res") ∧
    getPromptHandler stCalc smOther "s1" "calc_hello" [] =
      Except.error (Thrown.mcpError ErrorCode.invalidParams
        "Access denied to prompt calc_hello") := by
  exact ⟨rfl, rfl, rfl, rfl⟩

/-! ### Claim C5: template matching round-trip -/

/-- Claim C5: matching `greeting://alice` against the template
`greeting://{name}` extracts exactly `{name: "alice"}`, and
`greeting://alice/bob` yields no match (absence, not an error), because a
placeholder capture matches one or more non-slash characters and the
matcher is anchored to the full string. -/
theorem template_roundtrip :
    extractVariablesFromUri "greeting://{name}" "greeting://alice" =
      some [("name", "alice")] ∧
    extractVariablesFromUri "greeting://{name}" "greeting://alice/bob" = none := by
  exact ⟨by decide, by decide⟩

/-! ### Claim C6: callback exceptions -/

/-- Claim C6: for EVERY invocation branch whose user callback throws —
tool calls with or without an input schema (each branch has its own
try/catch in the source), concrete-uri and template resource reads, and
prompt gets with or without an argument schema — a throwing tool callback
is converted into a NORMAL result payload with `isError: true` carrying
the exception's message (no protocol-level error), while a throwing
resource or prompt callback is re-raised to the protocol runtime after
logging, failing only that request. -/
theorem callback_exception_handling
    (st : MCPState) (sm : SessionMap) (sid msg : String) (args : Args)
    (ctx : ClientContext) (hctx : SessionManager.getClientContext sm sid = some ctx)
    (nm₁ : String) (t₁ : ToolRegistration) (ht₁ : mapGet st.registeredTools nm₁ = some t₁)
    (hts₁ : t₁.inputSchema = none) (htc₁ : t₁.callback [] = Except.error msg)
    (nm₂ : String) (t₂ : ToolRegistration) (schema₂ : Schema) (parsed₂ : Args)
    (ht₂ : mapGet st.registeredTools nm₂ = some t₂)
    (hts₂ : t₂.inputSchema = some schema₂) (hval₂ : schema₂ args = Except.ok parsed₂)
    (htc₂ : t₂.callback (mapSet parsed₂ "reqQuery" (JsVal.obj ctx.reqQuery)) =
      Except.error msg)
    (rnm₁ uri₁ u₁ : String) (rcb₁ : ReadResourceCb) (r₁ : ResourceRegistration)
    (hr₁ : mapGet st.registeredResources rnm₁ = some r₁)
    (hrk₁ : r₁.kind = ResourceKind.uriRes u₁ rcb₁)
    (hrperm₁ : hasPermission st.enableUrlGroups r₁.group (some ctx.urlGroups) = true)
    (hrc₁ : rcb₁ uri₁ = Except.error msg)
    (rnm₂ uri₂ tmpl₂ : String) (rcb₂ : ReadResourceTemplateCb) (r₂ : ResourceRegistration)
    (vars₂ : List (String × String))
    (hr₂ : mapGet st.registeredResources rnm₂ = some r₂)
    (hrk₂ : r₂.kind = ResourceKind.templateRes tmpl₂ rcb₂)
    (hrperm₂ : hasPermission st.enableUrlGroups r₂.group (some ctx.urlGroups) = true)
    (hvars₂ : extractVariablesFromUri tmpl₂ uri₂ = some vars₂)
    (hrc₂ : rcb₂ uri₂ vars₂ = Except.error msg)
    (pnm₁ : String) (p₁ : PromptRegistration)
    (hp₁ : mapGet st.registeredPrompts pnm₁ = some p₁)
    (hps₁ : p₁.argsSchema = none) (hpc₁ : p₁.callback [] = Except.error msg)
    (hpperm₁ : hasPermission st.enableUrlGroups p₁.group (some ctx.urlGroups) = true)
    (pnm₂ : String) (p₂ : PromptRegistration) (ps₂ : PromptSchema) (parsedp₂ : Args)
    (hp₂ : mapGet st.registeredPrompts pnm₂ = some p₂)
    (hps₂ : p₂.argsSchema = some ps₂) (hpval₂ : ps₂.validate args = Except.ok parsedp₂)
    (hpc₂ : p₂.callback parsedp₂ = Except.error msg)
    (hpperm₂ : hasPermission st.enableUrlGroups p₂.group (some ctx.urlGroups) = true) :
    callToolHandler st sm sid nm₁ args =
      Except.ok { content := [Content.text msg], isError := true } ∧
    callToolHandler st sm sid nm₂ args =
      Except.ok { content := [Content.text msg], isError := true } ∧
    readResourceHandler st sm sid rnm₁ uri₁ = Except.error (Thrown.jsError msg) ∧
    readResourceHandler st sm sid rnm₂ uri₂ = Except.error (Thrown.jsError msg) ∧
    getPromptHandler st sm sid pnm₁ args = Except.error (Thrown.jsError msg) ∧
    getPromptHandler st sm sid pnm₂ args = Except.error (Thrown.jsError msg) := by
  refine ⟨?_, ?_, ?_, ?_, ?_, ?_⟩
  · simp only [callToolHandler, ht₁, hts₁, htc₁]
  · simp only [callToolHandler, ht₂, hts₂, hval₂, hctx, htc₂]
  · simp only [readResourceHandler, hr₁, hctx, hrperm₁, if_true, hrk₁, hrc₁]
  · simp only [readResourceHandler, hr₂, hctx, hrperm₂, if_true, hrk₂, hvars₂, hrc₂]
  · simp only [getPromptHandler, hp₁, hctx, hpperm₁, if_true, hps₁, hpc₁]
  · simp only [getPromptHandler, hp₂, hctx, hpperm₂, if_true, hps₂, hpval₂, hpc₂]

/-- A tool callback that throws `boom`. -/
def cbBoom : ToolCb := fun _ => Except.error "boom"

/-- A resource read callback that throws `boom`. -/
def rcbBoom : ReadResourceCb := fun _ => Except.error "boom"

/-- A template resource read callback that throws `boom`. -/
def rtcbBoom : ReadResourceTemplateCb := fun _ _ => Except.error "boom"

/-- A prompt callback that throws `boom`. -/
def pcbBoom : PromptCb := fun _ => Except.error "boom"

/-- A prompt argument schema with an empty shape that accepts the
arguments unchanged. -/
def psOk : PromptSchema := { shape := [], validate := fun a => Except.ok a }

/-- A server holding throwing capabilities of all six invocation shapes:
a schema-less and a schema-validated tool, a concrete-uri and a template
resource, and a schema-less and a schema-validated prompt. -/
def stBoom : MCPState :=
  ((((((mkState false).tool "t1" none none cbBoom).tool "t2" none (some schemaOk)
      cbBoom).resource "r1" (ResourceKind.uriRes "res://u" rcbBoom)).resource "r2"
      (ResourceKind.templateRes "greeting://{name}" rtcbBoom)).prompt "p1" none none
      pcbBoom).prompt "p2" none (some psOk) pcbBoom

/-- An unscoped session `s`. -/
def smS : SessionMap := [("s", mkClientContext "s" "" [])]

/-- The schema-less tool record stored in `stBoom`. -/
def tRec1Boom : ToolRegistration :=
  { name := storedToolKey "t1", group := parseToolGroup false "t1"
    description := none, inputSchema := none, callback := cbBoom }

/-- The schema-validated tool record stored in `stBoom`. -/
def tRec2Boom : ToolRegistration :=
  { name := storedToolKey "t2", group := parseToolGroup false "t2"
    description := none, inputSchema := some schemaOk, callback := cbBoom }

/-- The concrete-uri resource record stored in `stBoom`. -/
def rRec1Boom : ResourceRegistration :=
  { name := "r1", group := parseToolGroup false "r1"
    kind := ResourceKind.uriRes "res://u" rcbBoom }

/-- The template resource record stored in `stBoom`. -/
def rRec2Boom : ResourceRegistration :=
  { name := "r2", group := parseToolGroup false "r2"
    kind := ResourceKind.templateRes "greeting://{name}" rtcbBoom }

/-- The schema-less prompt record stored in `stBoom`. -/
def pRec1Boom : PromptRegistration :=
  { name := storedToolKey "p1", group := parseToolGroup false "p1"
    description := none, argsSchema := none, callback := pcbBoom }

/-- The schema-validated prompt record stored in `stBoom`. -/
def pRec2Boom : PromptRegistration :=
  { name := storedToolKey "p2", group := parseToolGroup false "p2"
    description := none, argsSchema := some psOk, callback := pcbBoom }

/-- Witness for `callback_exception_handling` at concrete throwing
registrations of all six invocation shapes. -/
theorem callback_exception_handling_witness :
    callToolHandler stBoom smS "s" "t1" [] =
      Except.ok { content := [Content.text "boom"], isError := true } ∧
    callToolHandler stBoom smS "s" "t2" [] =
      Except.ok { content := [Content.text "boom"], isError := true } ∧
    readResourceHandler stBoom smS "s" "r1" "res://u" =
      Except.error (Thrown.jsError "boom") ∧
    readResourceHandler stBoom smS "s" "r2" "greeting://alice" =
      Except.error (Thrown.jsError "boom") ∧
    getPromptHandler stBoom smS "s" "p1" [] = Except.error (Thrown.jsError "boom") ∧
    getPromptHandler stBoom smS "s" "p2" [] = Except.error (Thrown.jsError "boom") :=
  callback_exception_handling stBoom smS "s" "boom" []
    (mkClientContext "s" "" []) rfl
    "t1" tRec1Boom rfl rfl rfl
    "t2" tRec2Boom schemaOk [] rfl rfl rfl rfl
    "r1" "res://u" "res://u" rcbBoom rRec1Boom rfl rfl rfl rfl
    "r2" "greeting://alice" "greeting://{name}" rtcbBoom rRec2Boom [("name", "alice")]
      rfl rfl rfl (by decide) rfl
    "p1" pRec1Boom rfl rfl rfl rfl
    "p2" pRec2Boom psOk [] rfl rfl rfl rfl rfl

/-! ### Claim C9: duplicate placeholder names keep the last capture -/

theorem mapGet_foldl_mapSet (ps : List (String × String))
    (m : List (String × String)) (n : String) :
    mapGet (ps.foldl (fun acc p => mapSet acc p.1 p.2) m) n =
      (match lastValueFor n ps with
       | some v => some v
       | none => mapGet m n) := by
  induction ps generalizing m with
  | nil => rfl
  | cons p ps ih =>
    show mapGet (ps.foldl _ (mapSet m p.1 p.2)) n = _
    rw [ih]
    cases hl : lastValueFor n ps with
    | some v => simp [lastValueFor, hl]
    | none =>
      simp only [lastValueFor, hl]
      rw [mapGet_mapSet]
      by_cases hp : p.1 = n <;> simp [hp]

/-- Claim C9: placeholder names are collected in a single left-to-right
pass, and the zip loop assigns captures to names in left-to-right order
with JS object semantics, so looking any name up in the extracted map
yields the LAST captured value for that name; concretely, matching
`x://1/2` against `x://{a}/{a}` binds `a` to `2`. -/
theorem duplicate_placeholder_last_value :
    (∀ (names caps : List String) (n : String),
      mapGet (zipToObj names caps) n = lastValueFor n (names.zip caps)) ∧
    extractVariableNames "x://{a}/{a}" = ["a", "a"] ∧
    extractVariablesFromUri "x://{a}/{a}" "x://1/2" = some [("a", "2")] := by
  refine ⟨?_, by decide, by decide⟩
  intro names caps n
  show mapGet ((names.zip caps).foldl (fun acc p => mapSet acc p.1 p.2) []) n = _
  rw [mapGet_foldl_mapSet]
  cases lastValueFor n (names.zip caps) <;> rfl

end MultiServerMCP
